import Mathlib

/-!
Verification development for the lobster repository: the `map` stdlib command
(embedded from src/src/commands/stdlib/map.ts) and the workflow engine
(runWorkflowFile, resume-token codec, env composer), whose implementation is
not shipped in src/ and is therefore modelled from the specification, guided
by the repository's tests.

JavaScript data values are modelled as JSON-like trees (`JValue`); the
JavaScript `undefined` is modelled as `Option.none` where it can arise.
JavaScript numbers are modelled as integers (all values exercised by the
repository's tests and claims are integral). Property access on primitive
values (for example string `.length`) is modelled as absent.
-/

namespace Lobster

/-- JSON-like value tree modelling the JavaScript data values flowing through
the pipeline: null, booleans, (integral) numbers, strings, arrays, objects.
Object fields are an insertion-ordered association list, as in JavaScript. -/
inductive JValue where
  | null : JValue
  | bool : Bool → JValue
  | num : Int → JValue
  | str : String → JValue
  | arr : List JValue → JValue
  | obj : List (String × JValue) → JValue
  deriving Repr

/-- Single property access `v[p]`: object field lookup (first binding wins,
keys are unique in practice) or array indexing by a decimal string. -/
def jGet (v : JValue) (p : String) : Option JValue :=
  match v with
  | .obj fields => fields.lookup p
  | .arr xs =>
      match p.toNat? with
      | some i => xs.get? i
      | none => none
  | _ => none

/-- Walk a property path from a possibly-undefined cursor, mirroring the
loop of getByPath in map.ts: a null or undefined cursor met while segments
remain yields undefined; the final cursor may itself be undefined. -/
def jWalk : Option JValue → List String → Option JValue
  | cur, [] => cur
  | none, _ :: _ => none
  | some .null, _ :: _ => none
  | some v, p :: rest => jWalk (jGet v p) rest

/-- Split a character list on the dot character, mirroring the JavaScript
expression path.split with separator dot. -/
def splitSegs : List Char → List (List Char)
  | [] => [[]]
  | c :: rest =>
      if c = '.' then [] :: splitSegs rest
      else
        match splitSegs rest with
        | s :: ss => (c :: s) :: ss
        | [] => [[c]]

/-- Path segments of a string: split on dots and drop empty segments,
mirroring path.split with separator dot then filter Boolean. -/
def pathSegs (s : String) : List String :=
  ((splitSegs s.data).filter (fun seg => seg ≠ [])).map (fun seg => String.mk seg)

/-- Hexadecimal digit character for a value below 16 (lowercase). -/
def hexDigit (n : Nat) : Char :=
  if n < 10 then Char.ofNat (48 + n) else Char.ofNat (87 + n)

/-- JSON escape of one character, as produced by JSON.stringify. -/
def escapeChar (c : Char) : List Char :=
  if c = '"' then ['\\', '"']
  else if c = '\\' then ['\\', '\\']
  else if c = '\n' then ['\\', 'n']
  else if c = '\t' then ['\\', 't']
  else if c = '\r' then ['\\', 'r']
  else if c = Char.ofNat 8 then ['\\', 'b']
  else if c = Char.ofNat 12 then ['\\', 'f']
  else if c.toNat < 32 then
    ['\\', 'u', '0', '0', hexDigit (c.toNat / 16), hexDigit (c.toNat % 16)]
  else [c]

/-- JSON string quoting with escapes, as produced by JSON.stringify. -/
def jsonQuote (s : String) : String :=
  "\"" ++ String.mk (s.data.foldr (fun c acc => escapeChar c ++ acc) []) ++ "\""

mutual

/-- Compact JSON serialization of a value, modelling JSON.stringify with no
spacing argument. -/
def jsonStringify : JValue → String
  | .null => "null"
  | .bool b => if b then "true" else "false"
  | .num n => toString n
  | .str s => jsonQuote s
  | .arr xs => "[" ++ stringifyItems xs ++ "]"
  | .obj fs => "\x7b" ++ stringifyFields fs ++ "\x7d"

/-- Comma-joined serialization of array items. -/
def stringifyItems : List JValue → String
  | [] => ""
  | [x] => jsonStringify x
  | x :: y :: rest => jsonStringify x ++ "," ++ stringifyItems (y :: rest)

/-- Comma-joined serialization of object fields. -/
def stringifyFields : List (String × JValue) → String
  | [] => ""
  | [(k, v)] => jsonQuote k ++ ":" ++ jsonStringify v
  | (k, v) :: f :: rest => jsonQuote k ++ ":" ++ jsonStringify v ++ "," ++ stringifyFields (f :: rest)

end

/-- Textual form of a resolved template value: undefined and null render as
the empty string, strings render verbatim, every other value renders as its
compact JSON serialization. Shared by the map command's renderTemplate and
the workflow engine's template resolver. -/
def textForTemplate : Option JValue → String
  | none => ""
  | some .null => ""
  | some (.str s) => s
  | some v => jsonStringify v

/-- Leading and trailing whitespace removal on a character list, the charwise
form of the JavaScript String.prototype.trim used by map.ts. -/
def trimChars (cs : List Char) : List Char :=
  ((cs.dropWhile Char.isWhitespace).reverse.dropWhile Char.isWhitespace).reverse

/-- String wrapper of trimChars. -/
def strTrim (s : String) : String :=
  String.mk (trimChars s.data)

/-- Embeds getByPath from src/src/commands/stdlib/map.ts: a path of "." or
"this" returns the object itself; otherwise the dot-separated non-empty
segments are walked, a null or undefined cursor short-circuiting to
undefined. -/
def getByPath (obj : JValue) (path : String) : Option JValue :=
  if path = "." ∨ path = "this" then some obj
  else jWalk (some obj) (pathSegs path)

/-- Embeds renderTemplate from src/src/commands/stdlib/map.ts. The regex
there matches a double open brace, a non-empty run of characters other than
a close brace, then a double close brace; the captured text is trimmed and
looked up with getByPath; undefined and null render as the empty string,
strings verbatim, other values as compact JSON. Where the pattern fails to
match, scanning resumes one character later, as the regex engine does. -/
def renderAux (ctx : JValue) : List Char → List Char
  | [] => []
  | '{' :: '{' :: rest =>
      let s := rest.takeWhile (fun ch => ch ≠ '}')
      if s = [] then '{' :: renderAux ctx ('{' :: rest)
      else
        match hrem : rest.dropWhile (fun ch => ch ≠ '}') with
        | '}' :: '}' :: rem2 =>
            (textForTemplate (getByPath ctx (strTrim (String.mk s)))).data ++ renderAux ctx rem2
        | _ => '{' :: renderAux ctx ('{' :: rest)
  | c :: cs => c :: renderAux ctx cs
  termination_by l => l.length
  decreasing_by
    · simp
    · have h1 : (rest.dropWhile (fun ch => ch ≠ '}')).length ≤ rest.length :=
        (List.dropWhile_sublist _).length_le
      rw [hrem] at h1
      simp only [List.length_cons] at h1 ⊢
      omega
    · simp

/-- String-level wrapper of renderAux, the pure renderTemplate function. -/
def renderTemplate (tpl : String) (ctx : JValue) : String :=
  String.mk (renderAux ctx tpl.data)

/-- Splits one assignment token at its first equals sign, mirroring
String.indexOf and the two slices in parseAssignments; tokens without an
equals sign yield nothing. -/
def splitAssignment (tok : String) : Option (String × String) :=
  let pre := tok.data.takeWhile (fun ch => ch ≠ '=')
  let rest := tok.data.dropWhile (fun ch => ch ≠ '=')
  match rest with
  | '=' :: post => some ((String.mk pre), (String.mk post))
  | _ => none

/-- Embeds parseAssignments from src/src/commands/stdlib/map.ts: keep tokens
holding an equals sign whose trimmed key part is non-empty; the value part is
kept untrimmed. -/
def parseAssignments (tokens : List String) : List (String × String) :=
  tokens.foldr
    (fun tok acc =>
      match splitAssignment tok with
      | none => acc
      | some (pre, post) =>
          let key := strTrim pre
          if key = "" then acc else (key, post) :: acc)
    []

/-- JavaScript property assignment on an ordered field list: an existing key
is updated in place, a new key is appended at the end. -/
def setFieldList (fields : List (String × JValue)) (k : String) (v : JValue) :
    List (String × JValue) :=
  match fields with
  | [] => [(k, v)]
  | (k2, v2) :: rest =>
      if k2 = k then (k2, v) :: rest else (k2, v2) :: setFieldList rest k v

/-- Property assignment on a value; only ever applied to objects in the map
command. -/
def setField (v : JValue) (k : String) (val : JValue) : JValue :=
  match v with
  | .obj fields => .obj (setFieldList fields k val)
  | other => other

/-- Truthiness of an optional string argument, as JavaScript sees the wrap
and unwrap variables: present and non-empty. -/
def truthyStr : Option String → Bool
  | some s => s ≠ ""
  | none => false

/-- True exactly for plain objects: in map.ts the current value is replaced
by an object when it is null, not of object type, or an array. -/
def isPlainObj : JValue → Bool
  | .obj _ => true
  | _ => false

/-- Assignment loop of map.ts when the current value aliases the input item
(no wrap, item already a plain object): each assignment mutates the very
object later template renders read, so rendering uses the accumulator. -/
def assignAliased (assignments : List (String × String)) (acc : JValue) : JValue :=
  match assignments with
  | [] => acc
  | (k, v) :: rest => assignAliased rest (setField acc k (.str (renderTemplate v acc)))

/-- Assignment loop of map.ts when the current value is a fresh object (after
wrap or the value wrapper): the item variable still references the original
item, so every render reads the untouched item. -/
def assignFresh (item : JValue) (assignments : List (String × String)) (acc : JValue) : JValue :=
  match assignments with
  | [] => acc
  | (k, v) :: rest => assignFresh item rest (setField acc k (.str (renderTemplate v item)))

/-- Per-item transformation of the map command's async generator, one yielded
value per input item (undefined modelled as none, reachable through unwrap).
Wrap builds a fresh one-field object; unwrap reads a field of truthy objects
(arrays included) and yields immediately; assignments attach rendered fields,
first replacing a non-plain-object current value by a value-wrapper object.
When the current value is the input item itself, JavaScript aliasing makes
renders observe earlier assignments of the same invocation. -/
def processItem (wrap unwrap : Option String) (assignments : List (String × String))
    (item : JValue) : Option JValue :=
  if truthyStr unwrap then
    match unwrap, item with
    | some u, .obj fields => jGet (.obj fields) u
    | some u, .arr xs => jGet (.arr xs) u
    | _, _ => none
  else
    let afterWrap : JValue :=
      match wrap with
      | some w => if w = "" then item else .obj [(w, item)]
      | none => item
    if assignments.isEmpty then some afterWrap
    else
      match wrap with
      | some w =>
          if w = "" then
            if isPlainObj item then some (assignAliased assignments item)
            else some (assignFresh item assignments (.obj [("value", item)]))
          else some (assignFresh item assignments (.obj [(w, item)]))
      | none =>
          if isPlainObj item then some (assignAliased assignments item)
          else some (assignFresh item assignments (.obj [("value", item)]))

/-- Embeds mapCommand.run from src/src/commands/stdlib/map.ts over a finite
input list: the wrap and unwrap arguments are the string-typed argument
values (absent when not strings); supplying both as non-empty strings throws
before any item is consumed, otherwise every item is transformed in order. -/
def mapRun (wrapArg unwrapArg : Option String) (tokens : List String)
    (input : List JValue) : Except String (List (Option JValue)) :=
  let assignments := parseAssignments tokens
  if truthyStr wrapArg ∧ truthyStr unwrapArg then
    .error "map cannot use both --wrap and --unwrap"
  else
    .ok (input.map (processItem wrapArg unwrapArg assignments))

/-- Identifier characters of a bare template reference. -/
def identChar (c : Char) : Bool :=
  c.isAlpha || c.isDigit || c = '_'

/-- Characters of a bare reference path: identifier characters and dots. -/
def pathChar (c : Char) : Bool :=
  identChar c || c = '.'

/-- Modelled from the spec: the workflow engine's variable scope is a layered
name-to-value mapping; earlier entries take precedence (first match wins). -/
def Scope := List (String × JValue)

/-- Resolve a reference body (the text between the dollar-brace and the close
brace, or the bare path after the dollar sign) against a scope: the first
dot-segment is looked up in the scope and the remaining segments are walked;
a missing key at any segment yields none. -/
def scopeResolve (scope : List (String × JValue)) (body : List Char) : Option JValue :=
  match ((splitSegs body).filter (fun seg => seg ≠ [])).map (fun seg => String.mk seg) with
  | [] => none
  | s :: rest =>
      match scope.lookup s with
      | none => none
      | some v => jWalk (some v) rest

/-- Modelled from the spec: the engine's Template Resolver (src/workflows is
absent from the sources; section 4.1 of the spec defines it). Replaces every
dollar-brace reference and bare dollar-path reference with the resolved
value's textual form; unresolvable references render as the empty string. -/
def resolveAux (scope : List (String × JValue)) : List Char → List Char
  | [] => []
  | '$' :: '{' :: rest =>
      match hrem2 : rest.dropWhile (fun ch => ch ≠ '}') with
      | '}' :: rem2 =>
          (textForTemplate (scopeResolve scope (rest.takeWhile (fun ch => ch ≠ '}')))).data
            ++ resolveAux scope rem2
      | _ => '$' :: resolveAux scope ('{' :: rest)
  | '$' :: c :: rest =>
      if identChar c then
        (textForTemplate (scopeResolve scope (c :: rest.takeWhile pathChar))).data
          ++ resolveAux scope (rest.dropWhile pathChar)
      else '$' :: resolveAux scope (c :: rest)
  | c :: cs => c :: resolveAux scope cs
  termination_by l => l.length
  decreasing_by
    · have h1 : (rest.dropWhile (fun ch => ch ≠ '}')).length ≤ rest.length :=
        (List.dropWhile_sublist _).length_le
      rw [hrem2] at h1
      simp only [List.length_cons] at h1 ⊢
      omega
    · simp
    · have h1 : (rest.dropWhile pathChar).length ≤ rest.length :=
        (List.dropWhile_sublist _).length_le
      simp only [List.length_cons]
      omega
    · simp
    · simp

/-- String-level wrapper of resolveAux: the engine's pure template resolver. -/
def resolveTemplate (scope : List (String × JValue)) (tpl : String) : String :=
  String.mk (resolveAux scope tpl.data)

/-- Modelled from the spec: one step of a workflow definition (section 3);
exactly one of command or prompt must be present, checked at load time. -/
structure StepSpec where
  id : String
  command : Option String := none
  prompt : Option String := none
  system : Option String := none
  stdin : Option String := none
  env : List (String × String) := []
  deriving Repr

/-- Modelled from the spec: a loaded workflow definition (section 3); dir is
the directory containing the workflow file, source the file reference. -/
structure WorkflowDefinition where
  name : String
  source : String
  dir : String
  args : List (String × String) := []
  env : List (String × String) := []
  cwd : Option String := none
  steps : List StepSpec
  deriving Repr

/-- Modelled from the spec: a recorded step result (section 3) — the captured
stdout, stderr and exit status of a process step, or the echoed completion
text (as stdout, per the template references of the tests) of a resumed
prompt step. -/
structure StepResult where
  id : String
  stdout : String
  stderr : String
  exitCode : Nat
  deriving Repr, DecidableEq

/-- Modelled from the spec: the serialized continuation state (section 4.4) —
kind discriminant, workflow source reference, next-step index and the ordered
completed step results. -/
structure ResumePayload where
  kind : String
  source : String
  nextStep : Nat
  completed : List StepResult
  deriving Repr, DecidableEq

/-- Modelled from the spec: the halt descriptor returned with needs_llm
(sections 3 and 6) — rendered prompt, optional rendered system text, optional
rendered context, and the resume token. -/
structure HaltDescriptor where
  prompt : String
  system : Option String
  context : Option String
  resumeToken : String
  deriving Repr, DecidableEq

/-- Modelled from the spec: the error taxonomy of section 7 — validation,
execution and decoding failures are distinct. -/
inductive WfError where
  | validationErr : String → WfError
  | executionErr : String → WfError
  | decodeErr : String → WfError
  deriving Repr, DecidableEq

/-- Modelled from the spec: a request handed to the external process-spawning
primitive (section 6) — rendered command line, working directory, environment
mapping, optional stdin text. -/
structure ProcessRequest where
  command : String
  cwd : String
  env : List (String × String)
  stdin : Option String
  deriving Repr, DecidableEq

/-- Modelled from the spec: what the spawning primitive returns — captured
stdout, stderr, exit status. -/
structure ProcessResult where
  stdout : String
  stderr : String
  exitCode : Nat
  deriving Repr, DecidableEq

/-- Modelled from the spec: the outcome of one engine invocation (section
4.5) — ok with the output list, needs_llm with a halt descriptor, or a fatal
propagated error. -/
inductive RunResult where
  | ok : List String → RunResult
  | needsLlm : HaltDescriptor → RunResult
  | failed : WfError → RunResult
  deriving Repr, DecidableEq

/-- Lift a string environment to a scope of string values. -/
def strScope (env : List (String × String)) : List (String × JValue) :=
  env.map (fun kv => (kv.1, JValue.str kv.2))

/-- Modelled from the spec: arg defaults as a scope layer (section 3). -/
def argsScope (wf : WorkflowDefinition) : List (String × JValue) :=
  wf.args.map (fun kv => (kv.1, JValue.str kv.2))

/-- Modelled from the spec: the scope that workflow-level env templates are
resolved against — args merged over the parent environment, so an arg name
always shadows the parent environment's same-named variable (section 4.2). -/
def envResScope (wf : WorkflowDefinition) (parentEnv : List (String × String)) :
    List (String × JValue) :=
  argsScope wf ++ strScope parentEnv

/-- Modelled from the spec: the workflow-level env map with every value
template-resolved against args and the parent environment (section 4.2 b). -/
def wfEnvResolved (wf : WorkflowDefinition) (parentEnv : List (String × String)) :
    List (String × String) :=
  wf.env.map (fun kv => (kv.1, resolveTemplate (envResScope wf parentEnv) kv.2))

/-- Modelled from the spec: the scope that step-level env templates are
resolved against — the workflow layer's scope plus the step's own peers
(section 4.2 c). -/
def stepEnvScope (wf : WorkflowDefinition) (parentEnv : List (String × String))
    (step : StepSpec) : List (String × JValue) :=
  strScope step.env ++ strScope (wfEnvResolved wf parentEnv) ++ envResScope wf parentEnv

/-- Modelled from the spec: the effective environment for a step, layered
lowest to highest precedence: parent environment, resolved workflow-level
env, resolved step-level env (section 4.2); first match wins, so higher
layers come first. -/
def composeEnv (parentEnv : List (String × String)) (wf : WorkflowDefinition)
    (step : StepSpec) : List (String × String) :=
  step.env.map (fun kv => (kv.1, resolveTemplate (stepEnvScope wf parentEnv step) kv.2))
    ++ wfEnvResolved wf parentEnv ++ parentEnv

/-- Modelled from the spec: completed step outputs as a scope layer, keyed by
step id with stdout and stderr fields (section 3). -/
def resultsScope (completed : List StepResult) : List (String × JValue) :=
  completed.map (fun r =>
    (r.id, JValue.obj [("stdout", JValue.str r.stdout), ("stderr", JValue.str r.stderr)]))

/-- Modelled from the spec: the variable scope a step's templates are
resolved against, merged in increasing precedence: arg defaults, parent
environment, resolved workflow env, completed step outputs (section 3). -/
def mkScope (wf : WorkflowDefinition) (parentEnv : List (String × String))
    (completed : List StepResult) : List (String × JValue) :=
  resultsScope completed ++ strScope (wfEnvResolved wf parentEnv)
    ++ strScope parentEnv ++ argsScope wf

/-- True when the path is absolute (begins with a slash). -/
def isAbsPath (p : String) : Bool :=
  match p.data with
  | '/' :: _ => true
  | _ => false

/-- Drop one leading dot-slash from a relative path. -/
def stripDotSlash (p : String) : String :=
  match p.data with
  | '.' :: '/' :: rest => String.mk rest
  | _ => p

/-- Join a relative path onto a directory. -/
def joinPath (dir rel : String) : String :=
  dir ++ "/" ++ stripDotSlash rel

/-- Modelled from the spec: the working directory of every process step — a
relative workflow cwd resolves against the directory containing the workflow
file, an absolute cwd is used as given, and with no cwd the caller's ambient
working directory is used (section 4.3). -/
def effectiveCwd (wf : WorkflowDefinition) (ambientCwd : String) : String :=
  match wf.cwd with
  | none => ambientCwd
  | some c => if isAbsPath c then c else joinPath wf.dir c

/-- Modelled from the spec: load-time shape validation of one step — a step
with both command and prompt is rejected naming the conflict, a step with
neither is rejected naming the omission (section 4.3). -/
def validateStep (s : StepSpec) : Except String Unit :=
  match s.command, s.prompt with
  | some _, some _ => .error ("step " ++ s.id ++ " cannot have both command and prompt")
  | none, none => .error ("step " ++ s.id ++ " requires a command or prompt")
  | _, _ => .ok ()

/-- Validate every step in order, stopping at the first violation. -/
def validateSteps : List StepSpec → Except String Unit
  | [] => .ok ()
  | s :: rest =>
      match validateStep s with
      | .error m => .error m
      | .ok _ => validateSteps rest

/-- Modelled from the spec: load-time validation of a workflow — every step
must have exactly one of command and prompt, and step ids must be unique;
fatal before any step executes (section 4.3). -/
def validateWorkflow (wf : WorkflowDefinition) : Except String Unit :=
  match validateSteps wf.steps with
  | .error m => .error m
  | .ok _ =>
      if (wf.steps.map (fun s => s.id)).Nodup then .ok ()
      else .error ("workflow " ++ wf.name ++ " has duplicate step ids")

/-- Unary length marker used by the token codec: a run of one characters. -/
def encCount (n : Nat) : List Char :=
  List.replicate n '1'

/-- Length-prefixed encoding of one string inside a token. -/
def encStr (s : String) : List Char :=
  encCount s.data.length ++ ':' :: s.data

/-- Length-marker encoding of one natural number inside a token. -/
def encNat (n : Nat) : List Char :=
  encCount n ++ [';']

/-- Encoding of one step result inside a token. -/
def encResult (r : StepResult) : List Char :=
  encStr r.id ++ encStr r.stdout ++ encStr r.stderr ++ encNat r.exitCode

/-- Encoding of a list of step results inside a token. -/
def encResults : List StepResult → List Char
  | [] => []
  | r :: rest => encResult r ++ encResults rest

/-- Character-level encoding of a resume payload. -/
def encPayload (p : ResumePayload) : List Char :=
  encStr p.kind ++ encStr p.source ++ encNat p.nextStep
    ++ encNat p.completed.length ++ encResults p.completed

/-- Modelled from the spec: the Resume Token Codec's encoder (section 4.4) —
serializes the kind discriminant, workflow source reference, next-step index
and ordered completed step results into an opaque token string. -/
def encodeResumeToken (p : ResumePayload) : String :=
  String.mk (encPayload p)

/-- Count the leading run of one characters. -/
def parseCount : List Char → Nat × List Char
  | [] => (0, [])
  | c :: rest =>
      if c = '1' then
        let p := parseCount rest
        (p.1 + 1, p.2)
      else (0, c :: rest)

/-- Decode one length-prefixed string; fails on a missing colon marker or a
token too short for the announced length. -/
def parseStr (cs : List Char) : Except WfError (String × List Char) :=
  let p := parseCount cs
  match p.2 with
  | ':' :: rest =>
      if p.1 ≤ rest.length then
        .ok (String.mk (rest.take p.1), rest.drop p.1)
      else .error (.decodeErr "resume token truncated")
  | _ => .error (.decodeErr "resume token malformed")

/-- Decode one length-marker natural number; fails on a missing marker. -/
def parseNat (cs : List Char) : Except WfError (Nat × List Char) :=
  let p := parseCount cs
  match p.2 with
  | ';' :: rest => .ok (p.1, rest)
  | _ => .error (.decodeErr "resume token malformed")

/-- Decode one step result. -/
def parseResult (cs : List Char) : Except WfError (StepResult × List Char) :=
  match parseStr cs with
  | .error e => .error e
  | .ok (id, cs1) =>
    match parseStr cs1 with
    | .error e => .error e
    | .ok (out, cs2) =>
      match parseStr cs2 with
      | .error e => .error e
      | .ok (err, cs3) =>
        match parseNat cs3 with
        | .error e => .error e
        | .ok (code, cs4) => .ok (⟨id, out, err, code⟩, cs4)

/-- Decode a counted list of step results. -/
def parseResults : Nat → List Char → Except WfError (List StepResult × List Char)
  | 0, cs => .ok ([], cs)
  | n + 1, cs =>
      match parseResult cs with
      | .error e => .error e
      | .ok (r, cs1) =>
          match parseResults n cs1 with
          | .error e => .error e
          | .ok (rs, cs2) => .ok (r :: rs, cs2)

/-- Modelled from the spec: the Resume Token Codec's decoder (section 4.4) —
the exact inverse of the encoder on well-formed payloads; every malformed or
tampered token fails with a decoding error (distinct by construction from
validation and execution errors), including an unrecognized kind discriminant
and trailing garbage. -/
def decodeResumeToken (token : String) : Except WfError ResumePayload :=
  match parseStr token.data with
  | .error e => .error e
  | .ok (kind, cs1) =>
    if kind = "workflow-file" then
      match parseStr cs1 with
      | .error e => .error e
      | .ok (source, cs2) =>
        match parseNat cs2 with
        | .error e => .error e
        | .ok (next, cs3) =>
          match parseNat cs3 with
          | .error e => .error e
          | .ok (count, cs4) =>
            match parseResults count cs4 with
            | .error e => .error e
            | .ok (results, cs5) =>
                match cs5 with
                | [] => .ok ⟨kind, source, next, results⟩
                | _ => .error (.decodeErr "resume token has trailing data")
    else .error (.decodeErr "unknown resume token kind")

/-- Modelled from the spec: a payload is well-formed when it carries the
workflow-file kind discriminant. -/
def wellFormedPayload (p : ResumePayload) : Prop :=
  p.kind = "workflow-file"

/-- Modelled from the spec: the Workflow Runner's step loop (sections 4.3 and
4.5). Steps run strictly in order. A prompt step consumes the completion
supplied on resume, recording it verbatim as the step's stdout, or halts with
a rendered halt descriptor and a token carrying the position and the
completed results. A command step renders its command and stdin against the
scope, composes its environment, and hands them with the effective working
directory to the external spawner; a nonzero exit aborts the run. The second
component of the result is the ordered trace of spawn requests. -/
def runLoop (exec : ProcessRequest → ProcessResult) (wf : WorkflowDefinition)
    (parentEnv : List (String × String)) (ambientCwd : String) :
    List StepSpec → List StepResult → Option String → RunResult × List ProcessRequest
  | [], completed, _ =>
      (.ok ((completed.getLast?).elim [] (fun r => [r.stdout])), [])
  | step :: rest, completed, pending =>
      match step.prompt with
      | some ptpl =>
          match pending with
          | some c =>
              runLoop exec wf parentEnv ambientCwd rest
                (completed ++ [⟨step.id, c, "", 0⟩]) none
          | none =>
              let scope := mkScope wf parentEnv completed
              (.needsLlm
                { prompt := resolveTemplate scope ptpl
                  system := step.system.map (resolveTemplate scope)
                  context := step.stdin.map (resolveTemplate scope)
                  resumeToken := encodeResumeToken
                    ⟨"workflow-file", wf.source, completed.length, completed⟩ }, [])
      | none =>
          match step.command with
          | some ctpl =>
              let scope := mkScope wf parentEnv completed
              let req : ProcessRequest :=
                { command := resolveTemplate scope ctpl
                  cwd := effectiveCwd wf ambientCwd
                  env := composeEnv parentEnv wf step
                  stdin := step.stdin.map (resolveTemplate scope) }
              let res := exec req
              if res.exitCode = 0 then
                let next := runLoop exec wf parentEnv ambientCwd rest
                  (completed ++ [⟨step.id, res.stdout, res.stderr, res.exitCode⟩]) none
                (next.1, req :: next.2)
              else
                (.failed (.executionErr ("step " ++ step.id ++ " failed")), [req])
          | none =>
              (.failed (.validationErr ("step " ++ step.id ++ " requires a command or prompt")), [])

/-- Modelled from the spec: one engine invocation (section 4.5) — load-time
validation runs first and fails fatally before any step executes; a fresh
start runs from the first step, a resume re-enters at the recorded position
with the accumulated results and the supplied completion. -/
def runWorkflowFile (exec : ProcessRequest → ProcessResult) (wf : WorkflowDefinition)
    (parentEnv : List (String × String)) (ambientCwd : String)
    (resume : Option (ResumePayload × String)) : RunResult × List ProcessRequest :=
  match validateWorkflow wf with
  | .error m => (.failed (.validationErr m), [])
  | .ok _ =>
      match resume with
      | none => runLoop exec wf parentEnv ambientCwd wf.steps [] none
      | some (pay, completion) =>
          runLoop exec wf parentEnv ambientCwd (wf.steps.drop pay.nextStep)
            pay.completed (some completion)

theorem mk_data_eq (s : String) : String.mk s.data = s := rfl

theorem parseCount_enc (n : Nat) (rest : List Char) (h : rest.head? ≠ some '1') :
    parseCount (encCount n ++ rest) = (n, rest) := by
  induction n with
  | zero =>
      cases rest with
      | nil => simp [encCount, parseCount]
      | cons c cs =>
          have hc : c ≠ '1' := by
            intro hc
            exact h (by simp [hc])
          simp [encCount, parseCount, hc]
  | succ n ih => simp [encCount, List.replicate_succ, parseCount, encCount] at ih ⊢; simp [ih]

theorem parseCount_sound (cs : List Char) (n : Nat) (rem : List Char)
    (h : parseCount cs = (n, rem)) : cs = encCount n ++ rem ∧ rem.head? ≠ some '1' := by
  induction cs generalizing n with
  | nil =>
      simp [parseCount] at h
      obtain ⟨rfl, rfl⟩ := h
      simp [encCount]
  | cons c rest ih =>
      by_cases hc : c = '1'
      · subst hc
        have h2 : ((parseCount rest).1 + 1, (parseCount rest).2) = (n, rem) := by
          rw [← h]; simp [parseCount]
        injection h2 with h2a h2b
        have hp : parseCount rest = ((parseCount rest).1, rem) := by rw [← h2b]
        obtain ⟨ha, hb⟩ := ih _ hp
        refine ⟨?_, hb⟩
        rw [← h2a]
        simp only [encCount, List.replicate_succ, List.cons_append, List.cons.injEq, true_and]
        exact ha
      · have h2 : ((0 : Nat), c :: rest) = (n, rem) := by
          rw [← h]; simp [parseCount, hc]
        injection h2 with h2a h2b
        subst h2b
        rw [← h2a]
        simp [encCount, hc]

theorem parseStr_enc (s : String) (rest : List Char) :
    parseStr (encStr s ++ rest) = .ok (s, rest) := by
  have h1 : encStr s ++ rest = encCount s.data.length ++ (':' :: (s.data ++ rest)) := by
    simp [encStr]
  rw [h1, parseStr, parseCount_enc _ _ (by simp)]
  simp [List.take_left, List.drop_left, mk_data_eq]

theorem parseStr_sound (cs : List Char) (s : String) (rem : List Char)
    (h : parseStr cs = .ok (s, rem)) : cs = encStr s ++ rem := by
  rw [parseStr] at h
  rcases hp : parseCount cs with ⟨n, rem0⟩
  rw [hp] at h
  obtain ⟨hcs, -⟩ := parseCount_sound cs n rem0 hp
  split at h
  case h_2 => simp at h
  case h_1 _ rest heq =>
    split at h
    case isFalse => simp at h
    case isTrue hn =>
      simp only [Except.ok.injEq, Prod.mk.injEq] at h
      obtain ⟨hs, hr⟩ := h
      subst hcs
      simp only at heq
      subst heq
      rw [← hs, ← hr]
      simp [encStr, mk_data_eq, List.length_take, Nat.min_eq_left hn,
        List.take_append_drop]

theorem parseNat_enc (n : Nat) (rest : List Char) :
    parseNat (encNat n ++ rest) = .ok (n, rest) := by
  have h1 : encNat n ++ rest = encCount n ++ (';' :: rest) := by
    simp [encNat]
  rw [h1, parseNat, parseCount_enc _ _ (by simp)]
  rfl

theorem parseNat_sound (cs : List Char) (n : Nat) (rem : List Char)
    (h : parseNat cs = .ok (n, rem)) : cs = encNat n ++ rem := by
  rw [parseNat] at h
  rcases hp : parseCount cs with ⟨n0, rem0⟩
  rw [hp] at h
  obtain ⟨hcs, -⟩ := parseCount_sound cs n0 rem0 hp
  split at h
  case h_2 => simp at h
  case h_1 _ rest heq =>
    simp only [Except.ok.injEq, Prod.mk.injEq] at h
    obtain ⟨hn, hr⟩ := h
    subst hcs
    simp only at heq
    subst heq
    rw [← hn, ← hr]
    simp [encNat]

theorem parseResult_enc (r : StepResult) (rest : List Char) :
    parseResult (encResult r ++ rest) = .ok (r, rest) := by
  have h1 : encResult r ++ rest =
      encStr r.id ++ (encStr r.stdout ++ (encStr r.stderr ++ (encNat r.exitCode ++ rest))) := by
    simp [encResult]
  rw [h1, parseResult]
  simp only [parseStr_enc, parseNat_enc]

theorem parseResult_sound (cs : List Char) (r : StepResult) (rem : List Char)
    (h : parseResult cs = .ok (r, rem)) : cs = encResult r ++ rem := by
  rw [parseResult] at h
  split at h
  next e1 heq1 => simp at h
  next id1 cs1 heq1 =>
    split at h
    next e2 heq2 => simp at h
    next out1 cs2 heq2 =>
      split at h
      next e3 heq3 => simp at h
      next err1 cs3 heq3 =>
        split at h
        next e4 heq4 => simp at h
        next code1 cs4 heq4 =>
          simp only [Except.ok.injEq, Prod.mk.injEq] at h
          obtain ⟨hr, hrem⟩ := h
          subst hrem
          rw [parseStr_sound cs id1 cs1 heq1, parseStr_sound cs1 out1 cs2 heq2,
            parseStr_sound cs2 err1 cs3 heq3, parseNat_sound cs3 code1 cs4 heq4, ← hr]
          simp [encResult]

theorem parseResults_enc (rs : List StepResult) (rest : List Char) :
    parseResults rs.length (encResults rs ++ rest) = .ok (rs, rest) := by
  induction rs with
  | nil => simp [encResults, parseResults]
  | cons r rs ih =>
      have h1 : encResults (r :: rs) ++ rest = encResult r ++ (encResults rs ++ rest) := by
        simp [encResults]
      simp only [List.length_cons, h1, parseResults, parseResult_enc, ih]

theorem parseResults_sound (count : Nat) (cs : List Char) (rs : List StepResult)
    (rem : List Char) (h : parseResults count cs = .ok (rs, rem)) :
    cs = encResults rs ++ rem ∧ rs.length = count := by
  induction count generalizing cs rs with
  | zero =>
      simp [parseResults] at h
      obtain ⟨rfl, rfl⟩ := h
      simp [encResults]
  | succ n ih =>
      rw [parseResults] at h
      split at h
      next e1 heq1 => simp at h
      next r1 cs1 heq1 =>
        split at h
        next e2 heq2 => simp at h
        next rs1 cs2 heq2 =>
          simp only [Except.ok.injEq, Prod.mk.injEq] at h
          obtain ⟨hrs, hrem⟩ := h
          subst hrem
          obtain ⟨ha, hb⟩ := ih cs1 rs1 heq2
          rw [parseResult_sound cs r1 cs1 heq1, ha, ← hrs]
          simp [encResults, hb]

theorem decode_encode (p : ResumePayload) (h : wellFormedPayload p) :
    decodeResumeToken (encodeResumeToken p) = .ok p := by
  have hk : p.kind = "workflow-file" := h
  have hdata : (encodeResumeToken p).data =
      encStr p.kind ++ (encStr p.source ++ (encNat p.nextStep
        ++ (encNat p.completed.length ++ (encResults p.completed ++ [])))) := by
    simp [encodeResumeToken, encPayload]
  rw [decodeResumeToken, hdata]
  simp only [parseStr_enc, parseNat_enc, parseResults_enc]
  rw [if_pos hk]

theorem decode_sound (t : String) (p : ResumePayload)
    (h : decodeResumeToken t = .ok p) :
    t = encodeResumeToken p ∧ wellFormedPayload p := by
  rw [decodeResumeToken] at h
  split at h
  next e1 heq1 => simp at h
  next kind1 cs1 heq1 =>
    split at h
    case isFalse => simp at h
    case isTrue hk =>
      split at h
      next e2 heq2 => simp at h
      next source1 cs2 heq2 =>
        split at h
        next e3 heq3 => simp at h
        next next1 cs3 heq3 =>
          split at h
          next e4 heq4 => simp at h
          next count1 cs4 heq4 =>
            split at h
            next e5 heq5 => simp at h
            next results1 cs5 heq5 =>
              split at h
              case h_2 => simp at h
              case h_1 =>
                simp only [Except.ok.injEq] at h
                obtain ⟨ha, hcount⟩ := parseResults_sound count1 cs4 results1 [] heq5
                have ht : t.data = encPayload p := by
                  rw [parseStr_sound t.data kind1 cs1 heq1,
                    parseStr_sound cs1 source1 cs2 heq2,
                    parseNat_sound cs2 next1 cs3 heq3,
                    parseNat_sound cs3 count1 cs4 heq4, ha, ← h]
                  simp [encPayload, hcount]
                refine ⟨?_, ?_⟩
                · rw [← mk_data_eq t, ht]
                  rfl
                · rw [← h]
                  exact hk

theorem parseStr_err (cs : List Char) (e : WfError) (h : parseStr cs = .error e) :
    ∃ m, e = .decodeErr m := by
  rw [parseStr] at h
  split at h
  · split at h
    · simp at h
    · simp only [Except.error.injEq] at h
      exact ⟨_, h.symm⟩
  · simp only [Except.error.injEq] at h
    exact ⟨_, h.symm⟩

theorem parseNat_err (cs : List Char) (e : WfError) (h : parseNat cs = .error e) :
    ∃ m, e = .decodeErr m := by
  rw [parseNat] at h
  split at h
  · simp at h
  · simp only [Except.error.injEq] at h
    exact ⟨_, h.symm⟩

theorem parseResult_err (cs : List Char) (e : WfError) (h : parseResult cs = .error e) :
    ∃ m, e = .decodeErr m := by
  rw [parseResult] at h
  split at h
  next e1 heq1 =>
    simp only [Except.error.injEq] at h
    exact h ▸ parseStr_err cs e1 heq1
  next id1 cs1 heq1 =>
    split at h
    next e2 heq2 =>
      simp only [Except.error.injEq] at h
      exact h ▸ parseStr_err cs1 e2 heq2
    next out1 cs2 heq2 =>
      split at h
      next e3 heq3 =>
        simp only [Except.error.injEq] at h
        exact h ▸ parseStr_err cs2 e3 heq3
      next err1 cs3 heq3 =>
        split at h
        next e4 heq4 =>
          simp only [Except.error.injEq] at h
          exact h ▸ parseNat_err cs3 e4 heq4
        next code1 cs4 heq4 => simp at h

theorem parseResults_err (count : Nat) (cs : List Char) (e : WfError)
    (h : parseResults count cs = .error e) : ∃ m, e = .decodeErr m := by
  induction count generalizing cs e with
  | zero => simp [parseResults] at h
  | succ n ih =>
      rw [parseResults] at h
      split at h
      next e1 heq1 =>
        simp only [Except.error.injEq] at h
        exact h ▸ parseResult_err cs e1 heq1
      next r1 cs1 heq1 =>
        split at h
        next e2 heq2 =>
          simp only [Except.error.injEq] at h
          exact h ▸ ih cs1 e2 heq2
        next rs1 cs2 heq2 => simp at h

theorem decode_err (t : String) (e : WfError) (h : decodeResumeToken t = .error e) :
    ∃ m, e = .decodeErr m := by
  rw [decodeResumeToken] at h
  split at h
  next e1 heq1 =>
    simp only [Except.error.injEq] at h
    exact h ▸ parseStr_err t.data e1 heq1
  next kind1 cs1 heq1 =>
    split at h
    case isFalse =>
      simp only [Except.error.injEq] at h
      exact ⟨_, h.symm⟩
    case isTrue hk =>
      split at h
      next e2 heq2 =>
        simp only [Except.error.injEq] at h
        exact h ▸ parseStr_err cs1 e2 heq2
      next source1 cs2 heq2 =>
        split at h
        next e3 heq3 =>
          simp only [Except.error.injEq] at h
          exact h ▸ parseNat_err cs2 e3 heq3
        next next1 cs3 heq3 =>
          split at h
          next e4 heq4 =>
            simp only [Except.error.injEq] at h
            exact h ▸ parseNat_err cs3 e4 heq4
          next count1 cs4 heq4 =>
            split at h
            next e5 heq5 =>
              simp only [Except.error.injEq] at h
              exact h ▸ parseResults_err count1 cs4 e5 heq5
            next results1 cs5 heq5 =>
              split at h
              case h_1 => simp at h
              case h_2 =>
                simp only [Except.error.injEq] at h
                exact ⟨_, h.symm⟩

theorem renderAux_cons_ne (ctx : JValue) (c : Char) (cs : List Char) (hc : c ≠ '{') :
    renderAux ctx (c :: cs) = c :: renderAux ctx cs := by
  rw [renderAux.eq_def]
  split
  · simp_all
  · simp_all
  · next x c2 cs2 hcond heq =>
      injection heq with h1 h2
      subst h1
      subst h2
      rfl

theorem renderAux_append_lit (ctx : JValue) (l rest : List Char)
    (hl : ∀ c ∈ l, c ≠ '{') :
    renderAux ctx (l ++ rest) = l ++ renderAux ctx rest := by
  induction l with
  | nil => simp
  | cons c l2 ih =>
      have hc : c ≠ '{' := hl c (by simp)
      rw [List.cons_append, renderAux_cons_ne ctx c (l2 ++ rest) hc,
        ih (fun d hd => hl d (by simp [hd]))]
      rfl

theorem renderAux_ref (ctx : JValue) (k rest : List Char) (hk : k ≠ [])
    (hb : ∀ c ∈ k, c ≠ '}') :
    renderAux ctx ('{' :: '{' :: (k ++ '}' :: '}' :: rest)) =
      (textForTemplate (getByPath ctx (strTrim (String.mk k)))).data ++ renderAux ctx rest := by
  have htake : (k ++ '}' :: '}' :: rest).takeWhile (fun ch => ch ≠ '}') = k := by
    rw [List.takeWhile_append_of_pos (by simpa using hb)]
    simp
  have hdrop : (k ++ '}' :: '}' :: rest).dropWhile (fun ch => ch ≠ '}') = '}' :: '}' :: rest := by
    rw [List.dropWhile_append_of_pos (by simpa using hb)]
    simp
  rw [renderAux.eq_def]
  split
  · simp_all
  · next rest0 heq =>
      have hrest0 : rest0 = k ++ '}' :: '}' :: rest := by
        injection heq with h1 heq2
        injection heq2 with h2 h3
        exact h3.symm
      subst hrest0
      rw [if_neg (by rw [htake]; exact hk)]
      split
      · next rem2 hrem =>
          rw [hdrop] at hrem
          injection hrem with hh1 hrem2
          injection hrem2 with hh2 hrem3
          subst hrem3
          rw [htake]
      · next x hrem =>
          exfalso
          rw [hdrop] at hrem
          exact hrem rest rfl
  · next x c2 cs2 hcond heq =>
      exfalso
      injection heq with e1 e2
      exact hcond (k ++ '}' :: '}' :: rest) e1.symm e2.symm


/-- A template decomposed into alternating literal chunks and placeholder
references, used to state that renderTemplate replaces every reference. -/
inductive TplPiece where
  | lit : String → TplPiece
  | ref : String → TplPiece

/-- Reassemble the template text of a piece list: references are wrapped in
double braces exactly as the map command's template syntax writes them. -/
def assemble : List TplPiece → String
  | [] => ""
  | .lit s :: ps => s ++ assemble ps
  | .ref k :: ps => "\x7b\x7b" ++ k ++ "\x7d\x7d" ++ assemble ps

/-- The expected rendering of a piece list: literals verbatim, every
reference replaced by the textual form of its getByPath resolution. -/
def renderPieces (ctx : JValue) : List TplPiece → String
  | [] => ""
  | .lit s :: ps => s ++ renderPieces ctx ps
  | .ref k :: ps => textForTemplate (getByPath ctx (strTrim k)) ++ renderPieces ctx ps

/-- Side conditions under which a piece list reassembles unambiguously:
literal chunks hold no open brace and reference keys are non-empty with no
close brace. -/
def goodPiece : TplPiece → Prop
  | .lit s => ∀ c ∈ s.data, c ≠ '{'
  | .ref k => k.data ≠ [] ∧ ∀ c ∈ k.data, c ≠ '}'

instance goodPieceDecidable (p : TplPiece) : Decidable (goodPiece p) :=
  match p with
  | .lit s => inferInstanceAs (Decidable (∀ c ∈ s.data, c ≠ '{'))
  | .ref k => inferInstanceAs (Decidable (k.data ≠ [] ∧ ∀ c ∈ k.data, c ≠ '}'))

theorem renderAux_assemble (ctx : JValue) (pieces : List TplPiece)
    (h : ∀ p ∈ pieces, goodPiece p) :
    renderAux ctx (assemble pieces).data = (renderPieces ctx pieces).data := by
  induction pieces with
  | nil => simp [assemble, renderPieces, renderAux]
  | cons p ps ih =>
      have hps : ∀ q ∈ ps, goodPiece q := fun q hq => h q (by simp [hq])
      cases p with
      | lit s =>
          have hs : ∀ c ∈ s.data, c ≠ '{' := h (.lit s) (by simp)
          show renderAux ctx ((s ++ assemble ps)).data = ((s ++ renderPieces ctx ps)).data
          rw [String.data_append, String.data_append,
            renderAux_append_lit ctx s.data (assemble ps).data hs, ih hps]
      | ref k =>
          have hk : k.data ≠ [] ∧ ∀ c ∈ k.data, c ≠ '}' := h (.ref k) (by simp)
          show renderAux ctx (("\x7b\x7b" ++ k ++ "\x7d\x7d" ++ assemble ps)).data
            = ((textForTemplate (getByPath ctx (strTrim k)) ++ renderPieces ctx ps)).data
          have hshape : ("\x7b\x7b" ++ k ++ "\x7d\x7d" ++ assemble ps).data
              = '{' :: '{' :: (k.data ++ '}' :: '}' :: (assemble ps).data) := by
            simp [String.data_append]
          rw [hshape, renderAux_ref ctx k.data (assemble ps).data hk.1 hk.2, ih hps,
            String.data_append, mk_data_eq]

theorem renderTemplate_assemble (ctx : JValue) (pieces : List TplPiece)
    (h : ∀ p ∈ pieces, goodPiece p) :
    renderTemplate (assemble pieces) ctx = renderPieces ctx pieces := by
  rw [renderTemplate, renderAux_assemble ctx pieces h, mk_data_eq]

theorem renderTemplate_lit (tpl : String) (ctx : JValue)
    (h : ∀ c ∈ tpl.data, c ≠ '{') : renderTemplate tpl ctx = tpl := by
  have h0 : renderAux ctx [] = [] := by simp [renderAux]
  have h2 := renderAux_append_lit ctx tpl.data [] h
  rw [h0, List.append_nil] at h2
  rw [renderTemplate, h2, mk_data_eq]

theorem renderTemplate_single_ref (k : String) (ctx : JValue) (hk : k.data ≠ [])
    (hb : ∀ c ∈ k.data, c ≠ '}') :
    renderTemplate ("\x7b\x7b" ++ k ++ "\x7d\x7d") ctx
      = textForTemplate (getByPath ctx (strTrim k)) := by
  have hshape : ("\x7b\x7b" ++ k ++ "\x7d\x7d").data
      = '{' :: '{' :: (k.data ++ '}' :: '}' :: []) := by
    simp [String.data_append]
  rw [renderTemplate, hshape, renderAux_ref ctx k.data [] hk hb]
  have h0 : renderAux ctx [] = [] := by simp [renderAux]
  rw [h0, List.append_nil, mk_data_eq, mk_data_eq]

/-- Value of the last assignment token for a key, the one JavaScript leaves
in place after the assignment loop. -/
def lastAssign : List (String × String) → String → Option String
  | [], _ => none
  | (k1, v1) :: rest, k =>
      match lastAssign rest k with
      | some v => some v
      | none => if k1 = k then some v1 else none

theorem lookup_setFieldList (fields : List (String × JValue)) (k : String) (v : JValue)
    (k2 : String) :
    (setFieldList fields k v).lookup k2 = if k2 = k then some v else fields.lookup k2 := by
  induction fields with
  | nil =>
      by_cases h : k2 = k
      · subst h
        simp [setFieldList, List.lookup]
      · have hb : (k2 == k) = false := beq_eq_false_iff_ne.mpr h
        simp [setFieldList, List.lookup, hb, h]
  | cons kv rest ih =>
      rcases kv with ⟨k1, v1⟩
      by_cases h1 : k1 = k
      · subst h1
        by_cases h2 : k2 = k1
        · subst h2
          simp [setFieldList, List.lookup]
        · have hb : (k2 == k1) = false := beq_eq_false_iff_ne.mpr h2
          simp [setFieldList, List.lookup, hb, h2]
      · by_cases h2 : k2 = k1
        · subst h2
          simp [setFieldList, h1, List.lookup]
        · have hb1 : (k2 == k1) = false := beq_eq_false_iff_ne.mpr h2
          simp [setFieldList, h1, List.lookup, hb1, ih]

theorem isPlainObj_setField (v : JValue) (k : String) (val : JValue)
    (h : isPlainObj v = true) : isPlainObj (setField v k val) = true := by
  cases v <;> simp_all [isPlainObj, setField]

theorem jGet_setField_obj (fields : List (String × JValue)) (k : String) (val : JValue)
    (k2 : String) :
    jGet (setField (.obj fields) k val) k2 =
      if k2 = k then some val else jGet (.obj fields) k2 := by
  simp [setField, jGet, lookup_setFieldList]

theorem assignFresh_jGet (item : JValue) (assignments : List (String × String))
    (acc : JValue) (k : String) (h : isPlainObj acc = true) :
    jGet (assignFresh item assignments acc) k =
      match lastAssign assignments k with
      | some v => some (.str (renderTemplate v item))
      | none => jGet acc k := by
  induction assignments generalizing acc with
  | nil => simp [assignFresh, lastAssign]
  | cons kv rest ih =>
      rcases kv with ⟨k1, v1⟩
      rw [assignFresh, ih (setField acc k1 (.str (renderTemplate v1 item)))
        (isPlainObj_setField acc k1 _ h)]
      cases acc with
      | null => simp [isPlainObj] at h
      | bool b => simp [isPlainObj] at h
      | num n => simp [isPlainObj] at h
      | str s => simp [isPlainObj] at h
      | arr xs => simp [isPlainObj] at h
      | obj fields =>
        rcases hl : lastAssign rest k with _ | v
        · simp only [lastAssign, hl, jGet_setField_obj]
          by_cases hk : k1 = k
          · subst hk
            simp
          · simp [hk]
            intro hkk
            exact absurd hkk.symm hk
        · simp [lastAssign, hl]

theorem resolveAux_cons_ne (scope : List (String × JValue)) (c : Char) (cs : List Char)
    (hc : c ≠ '$') : resolveAux scope (c :: cs) = c :: resolveAux scope cs := by
  rw [resolveAux.eq_def]
  split
  · simp_all
  · simp_all
  · simp_all
  · next x c2 cs2 hcond heq =>
      injection heq with h1 h2
      subst h1
      subst h2
      rfl

theorem resolveAux_lit (scope : List (String × JValue)) (l rest : List Char)
    (hl : ∀ c ∈ l, c ≠ '$') :
    resolveAux scope (l ++ rest) = l ++ resolveAux scope rest := by
  induction l with
  | nil => simp
  | cons c l2 ih =>
      have hc : c ≠ '$' := hl c (by simp)
      rw [List.cons_append, resolveAux_cons_ne scope c (l2 ++ rest) hc,
        ih (fun d hd => hl d (by simp [hd]))]
      rfl

theorem resolveTemplate_lit (scope : List (String × JValue)) (tpl : String)
    (h : ∀ c ∈ tpl.data, c ≠ '$') : resolveTemplate scope tpl = tpl := by
  have h0 : resolveAux scope [] = [] := by simp [resolveAux]
  have h2 := resolveAux_lit scope tpl.data [] h
  rw [h0, List.append_nil] at h2
  rw [resolveTemplate, h2, mk_data_eq]

theorem splitSegs_no_dot (l : List Char) (h : ∀ c ∈ l, c ≠ '.') :
    splitSegs l = [l] := by
  induction l with
  | nil => simp [splitSegs]
  | cons c rest ih =>
      have hc : c ≠ '.' := h c (by simp)
      rw [splitSegs, if_neg hc, ih (fun d hd => h d (by simp [hd]))]

theorem scopeResolve_single (scope : List (String × JValue)) (N : String)
    (hne : N.data ≠ []) (hnd : ∀ c ∈ N.data, c ≠ '.') :
    scopeResolve scope N.data = scope.lookup N := by
  rw [scopeResolve, splitSegs_no_dot N.data hnd]
  simp only [List.filter, hne, mk_data_eq]
  cases hl : scope.lookup N with
  | none => simp [hne, mk_data_eq, hl]
  | some v => simp [hne, mk_data_eq, hl, jWalk]

theorem resolveAux_braced (scope : List (String × JValue)) (N : String) (rest : List Char)
    (hb : ∀ c ∈ N.data, c ≠ '}') :
    resolveAux scope ('$' :: '{' :: (N.data ++ '}' :: rest)) =
      (textForTemplate (scopeResolve scope N.data)).data ++ resolveAux scope rest := by
  have htake : (N.data ++ '}' :: rest).takeWhile (fun ch => ch ≠ '}') = N.data := by
    rw [List.takeWhile_append_of_pos (by simpa using hb)]
    simp
  have hdrop : (N.data ++ '}' :: rest).dropWhile (fun ch => ch ≠ '}') = '}' :: rest := by
    rw [List.dropWhile_append_of_pos (by simpa using hb)]
    simp
  rw [resolveAux.eq_def]
  split
  · simp_all
  · next rest0 heq =>
      have hrest0 : rest0 = N.data ++ '}' :: rest := by
        injection heq with h1 heq2
        injection heq2 with h2 h3
        exact h3.symm
      subst hrest0
      split
      · next rem2 hrem =>
          rw [hdrop] at hrem
          injection hrem with hh1 hrem2
          subst hrem2
          rw [htake]
      · next x hrem =>
          exfalso
          rw [hdrop] at hrem
          exact hrem rest rfl
  · next c2 rest2 hcond heq =>
      exfalso
      injection heq with e1 e2
      injection e2 with e3 e4
      exact hcond e3.symm
  · next x c2 cs2 hcond heq =>
      exfalso
      injection heq with e1 e2
      exact hcond '{' (N.data ++ '}' :: rest) e1.symm e2.symm

theorem resolveTemplate_braced_single (scope : List (String × JValue)) (N : String)
    (hne : N.data ≠ []) (hb : ∀ c ∈ N.data, c ≠ '}') (hnd : ∀ c ∈ N.data, c ≠ '.') :
    resolveTemplate scope ("$\x7b" ++ N ++ "\x7d") = textForTemplate (scope.lookup N) := by
  have hshape : ("$\x7b" ++ N ++ "\x7d").data = '$' :: '{' :: (N.data ++ '}' :: []) := by
    simp [String.data_append]
  rw [resolveTemplate, hshape, resolveAux_braced scope N [] hb,
    scopeResolve_single scope N hne hnd]
  have h0 : resolveAux scope [] = [] := by simp [resolveAux]
  rw [h0, List.append_nil, mk_data_eq]

theorem runLoop_cwd (exec : ProcessRequest → ProcessResult) (wf : WorkflowDefinition)
    (parentEnv : List (String × String)) (ambientCwd : String) (steps : List StepSpec) :
    ∀ (completed : List StepResult) (pending : Option String),
    ∀ req ∈ (runLoop exec wf parentEnv ambientCwd steps completed pending).2,
      req.cwd = effectiveCwd wf ambientCwd := by
  induction steps with
  | nil =>
      intro completed pending req hreq
      simp [runLoop] at hreq
  | cons step rest ih =>
      intro completed pending req hreq
      rw [runLoop] at hreq
      rcases hps : step.prompt with _ | ptpl
      · rcases hcs : step.command with _ | ctpl
        · simp [hps, hcs] at hreq
        · simp only [hps, hcs] at hreq
          split at hreq
          · simp only [List.mem_cons] at hreq
            rcases hreq with hreq | hreq
            · subst hreq
              rfl
            · exact ih _ _ req hreq
          · simp only [List.mem_singleton] at hreq
            subst hreq
            rfl
      · rcases hpd : pending with _ | c
        · simp [hps, hpd] at hreq
        · simp only [hps, hpd] at hreq
          exact ih _ _ req hreq

/-- Workflow family with a prompt-only step feeding a downstream command step
through a step-output reference, the shape of the resume tests. -/
def twoStepPromptWf (src dir pTpl : String) (sysT : Option String) (iTpl oTpl : String) :
    WorkflowDefinition :=
  { name := "resume-test", source := src, dir := dir,
    steps := [
      { id := "summarize", prompt := some pTpl, system := sysT, stdin := some iTpl },
      { id := "output", command := some oTpl, stdin := some "$summarize.stdout" } ] }

/-- The spawn request issued for the downstream step of twoStepPromptWf after
resuming with completion text c. -/
def twoStepPromptReq (pe : List (String × String))
    (amb src dir pTpl : String) (sysT : Option String) (iTpl oTpl c : String) : ProcessRequest :=
  { command := resolveTemplate
      (mkScope (twoStepPromptWf src dir pTpl sysT iTpl oTpl) pe [⟨"summarize", c, "", 0⟩]) oTpl
    cwd := effectiveCwd (twoStepPromptWf src dir pTpl sysT iTpl oTpl) amb
    env := composeEnv pe (twoStepPromptWf src dir pTpl sysT iTpl oTpl)
      { id := "output", command := some oTpl, stdin := some "$summarize.stdout" }
    stdin := some c }

/-- C1: running a workflow whose next unexecuted step is prompt-only halts
with needs_llm carrying exactly the prompt, system and context templates
rendered against the current scope; the resume token decodes back to the
recorded position; and resuming with any completion string records it
verbatim (the recorded step result is the completion, untouched by template
rendering) and re-running reaches ok with the completion text appearing
verbatim as the downstream step's stdin. -/
theorem claim_C1_prompt_halt_resume (exec : ProcessRequest → ProcessResult)
    (pe : List (String × String)) (amb src dir pTpl : String) (sysT : Option String)
    (iTpl oTpl c : String)
    (hexec : (exec (twoStepPromptReq pe amb src dir pTpl sysT iTpl oTpl c)).exitCode = 0) :
    runWorkflowFile exec (twoStepPromptWf src dir pTpl sysT iTpl oTpl) pe amb none =
      (.needsLlm
        { prompt := resolveTemplate (mkScope (twoStepPromptWf src dir pTpl sysT iTpl oTpl) pe []) pTpl
          system := sysT.map (resolveTemplate (mkScope (twoStepPromptWf src dir pTpl sysT iTpl oTpl) pe []))
          context := some (resolveTemplate (mkScope (twoStepPromptWf src dir pTpl sysT iTpl oTpl) pe []) iTpl)
          resumeToken := encodeResumeToken ⟨"workflow-file", src, 0, []⟩ }, [])
    ∧ decodeResumeToken (encodeResumeToken ⟨"workflow-file", src, 0, []⟩)
        = .ok ⟨"workflow-file", src, 0, []⟩
    ∧ runWorkflowFile exec (twoStepPromptWf src dir pTpl sysT iTpl oTpl) pe amb
        (some (⟨"workflow-file", src, 0, []⟩, c)) =
      (.ok [(exec (twoStepPromptReq pe amb src dir pTpl sysT iTpl oTpl c)).stdout],
        [twoStepPromptReq pe amb src dir pTpl sysT iTpl oTpl c]) := by
  refine ⟨?_, decode_encode _ rfl, ?_⟩
  · simp [runWorkflowFile, validateWorkflow, validateSteps, validateStep, runLoop,
      twoStepPromptWf]
  · have hstdin : resolveTemplate
        (mkScope (twoStepPromptWf src dir pTpl sysT iTpl oTpl) pe [⟨"summarize", c, "", 0⟩])
        "$summarize.stdout" = c := by
      simp [resolveTemplate, resolveAux, scopeResolve, splitSegs, jWalk, jGet,
        textForTemplate, identChar, pathChar, List.lookup, mk_data_eq, mkScope,
        resultsScope, twoStepPromptWf]
    rw [twoStepPromptReq] at hexec
    simp only [twoStepPromptWf] at hstdin hexec ⊢
    rw [twoStepPromptReq]
    simp only [twoStepPromptWf]
    simp [runWorkflowFile, validateWorkflow, validateSteps, validateStep, runLoop,
      hstdin, hexec, List.getLast?]


/-- Constant spawner used by concrete witnesses: every process succeeds with
fixed output. -/
def witnessExec : ProcessRequest → ProcessResult := fun _ => ⟨"RESULT", "", 0⟩

/-- Witness for C1 at a concrete workflow, completion "HELLO FROM HOST" and
the constant spawner. -/
theorem claim_C1_prompt_halt_resume_witness :
    (witnessExec (twoStepPromptReq [] "/amb" "w.lobster" "/d" "Summarize this."
        (some "Be helpful.") "$data" "echo out" "HELLO FROM HOST")).exitCode = 0
    ∧ runWorkflowFile witnessExec
        (twoStepPromptWf "w.lobster" "/d" "Summarize this." (some "Be helpful.") "$data" "echo out")
        [] "/amb" (some (⟨"workflow-file", "w.lobster", 0, []⟩, "HELLO FROM HOST")) =
      (.ok [(witnessExec (twoStepPromptReq [] "/amb" "w.lobster" "/d" "Summarize this."
          (some "Be helpful.") "$data" "echo out" "HELLO FROM HOST")).stdout],
        [twoStepPromptReq [] "/amb" "w.lobster" "/d" "Summarize this."
          (some "Be helpful.") "$data" "echo out" "HELLO FROM HOST"]) :=
  ⟨rfl,
    (claim_C1_prompt_halt_resume witnessExec [] "/amb" "w.lobster" "/d" "Summarize this."
      (some "Be helpful.") "$data" "echo out" "HELLO FROM HOST" rfl).2.2⟩


/-- Workflow family with two consecutive prompt steps followed by a final
command step, the shape of the multi-prompt resume test. -/
def twoPromptWf (src dir p1 p2 dTpl : String) : WorkflowDefinition :=
  { name := "multi-prompt", source := src, dir := dir,
    steps := [
      { id := "step1", prompt := some p1 },
      { id := "step2", prompt := some p2, stdin := some "$step1.stdout" },
      { id := "done", command := some dTpl, stdin := some "$step2.stdout" } ] }

/-- The spawn request issued for the final command step of twoPromptWf after
both completions c1 and c2 have been supplied. -/
def twoPromptReq (pe : List (String × String)) (amb src dir p1 p2 dTpl c1 c2 : String) :
    ProcessRequest :=
  { command := resolveTemplate
      (mkScope (twoPromptWf src dir p1 p2 dTpl) pe
        [⟨"step1", c1, "", 0⟩, ⟨"step2", c2, "", 0⟩]) dTpl
    cwd := effectiveCwd (twoPromptWf src dir p1 p2 dTpl) amb
    env := composeEnv pe (twoPromptWf src dir p1 p2 dTpl)
      { id := "done", command := some dTpl, stdin := some "$step2.stdout" }
    stdin := some c2 }

/-- C6: a workflow with two consecutive prompt steps needs exactly two resume
round-trips: the fresh run halts at the first prompt (token position 0), the
first resumed run halts at the second prompt (token position 1, its context
carrying the first completion verbatim), and the second resumed run completes
with ok; the halts occur in declaration order. -/
theorem claim_C6_two_prompts_two_roundtrips (exec : ProcessRequest → ProcessResult)
    (pe : List (String × String)) (amb src dir p1 p2 dTpl c1 c2 : String)
    (hexec : (exec (twoPromptReq pe amb src dir p1 p2 dTpl c1 c2)).exitCode = 0) :
    runWorkflowFile exec (twoPromptWf src dir p1 p2 dTpl) pe amb none =
      (.needsLlm
        { prompt := resolveTemplate (mkScope (twoPromptWf src dir p1 p2 dTpl) pe []) p1
          system := none
          context := none
          resumeToken := encodeResumeToken ⟨"workflow-file", src, 0, []⟩ }, [])
    ∧ decodeResumeToken (encodeResumeToken ⟨"workflow-file", src, 0, []⟩)
        = .ok ⟨"workflow-file", src, 0, []⟩
    ∧ runWorkflowFile exec (twoPromptWf src dir p1 p2 dTpl) pe amb
        (some (⟨"workflow-file", src, 0, []⟩, c1)) =
      (.needsLlm
        { prompt := resolveTemplate
            (mkScope (twoPromptWf src dir p1 p2 dTpl) pe [⟨"step1", c1, "", 0⟩]) p2
          system := none
          context := some c1
          resumeToken := encodeResumeToken ⟨"workflow-file", src, 1, [⟨"step1", c1, "", 0⟩]⟩ }, [])
    ∧ decodeResumeToken (encodeResumeToken ⟨"workflow-file", src, 1, [⟨"step1", c1, "", 0⟩]⟩)
        = .ok ⟨"workflow-file", src, 1, [⟨"step1", c1, "", 0⟩]⟩
    ∧ runWorkflowFile exec (twoPromptWf src dir p1 p2 dTpl) pe amb
        (some (⟨"workflow-file", src, 1, [⟨"step1", c1, "", 0⟩]⟩, c2)) =
      (.ok [(exec (twoPromptReq pe amb src dir p1 p2 dTpl c1 c2)).stdout],
        [twoPromptReq pe amb src dir p1 p2 dTpl c1 c2]) := by
  refine ⟨?_, decode_encode _ rfl, ?_, decode_encode _ rfl, ?_⟩
  · simp [runWorkflowFile, validateWorkflow, validateSteps, validateStep, runLoop,
      twoPromptWf]
  · have hctx : resolveTemplate
        (mkScope (twoPromptWf src dir p1 p2 dTpl) pe [⟨"step1", c1, "", 0⟩])
        "$step1.stdout" = c1 := by
      simp [resolveTemplate, resolveAux, scopeResolve, splitSegs, jWalk, jGet,
        textForTemplate, identChar, pathChar, List.lookup, mk_data_eq, mkScope,
        resultsScope, twoPromptWf]
    simp only [twoPromptWf] at hctx ⊢
    simp [runWorkflowFile, validateWorkflow, validateSteps, validateStep, runLoop, hctx]
  · have hstdin : resolveTemplate
        (mkScope (twoPromptWf src dir p1 p2 dTpl) pe
          [⟨"step1", c1, "", 0⟩, ⟨"step2", c2, "", 0⟩])
        "$step2.stdout" = c2 := by
      simp [resolveTemplate, resolveAux, scopeResolve, splitSegs, jWalk, jGet,
        textForTemplate, identChar, pathChar, List.lookup, mk_data_eq, mkScope,
        resultsScope, twoPromptWf]
    rw [twoPromptReq] at hexec
    simp only [twoPromptWf] at hstdin hexec ⊢
    rw [twoPromptReq]
    simp only [twoPromptWf]
    simp [runWorkflowFile, validateWorkflow, validateSteps, validateStep, runLoop,
      hstdin, hexec, List.getLast?]

/-- Witness for C6 at a concrete workflow, completions "First result." and
"Final insight." and the constant spawner. -/
theorem claim_C6_two_prompts_two_roundtrips_witness :
    (witnessExec (twoPromptReq [] "/amb" "m.lobster" "/d" "First analysis."
        "Second analysis." "echo done" "First result." "Final insight.")).exitCode = 0
    ∧ runWorkflowFile witnessExec
        (twoPromptWf "m.lobster" "/d" "First analysis." "Second analysis." "echo done")
        [] "/amb"
        (some (⟨"workflow-file", "m.lobster", 1, [⟨"step1", "First result.", "", 0⟩]⟩,
          "Final insight.")) =
      (.ok [(witnessExec (twoPromptReq [] "/amb" "m.lobster" "/d" "First analysis."
          "Second analysis." "echo done" "First result." "Final insight.")).stdout],
        [twoPromptReq [] "/amb" "m.lobster" "/d" "First analysis."
          "Second analysis." "echo done" "First result." "Final insight."]) :=
  ⟨rfl,
    (claim_C6_two_prompts_two_roundtrips witnessExec [] "/amb" "m.lobster" "/d"
      "First analysis." "Second analysis." "echo done" "First result." "Final insight."
      rfl).2.2.2.2⟩


/-- C2: decode is the exact inverse of encode on well-formed resume payloads
(field-for-field equality); every token that is not the canonical encoding of
a well-formed payload fails to decode, and every decode failure is a decoding
error, a constructor distinct from execution and validation errors. -/
theorem claim_C2_codec_inverse :
    (∀ p : ResumePayload, wellFormedPayload p →
      decodeResumeToken (encodeResumeToken p) = .ok p)
    ∧ (∀ (t : String) (p : ResumePayload), decodeResumeToken t = .ok p →
        t = encodeResumeToken p ∧ wellFormedPayload p)
    ∧ (∀ t : String, (∀ p : ResumePayload, wellFormedPayload p → t ≠ encodeResumeToken p) →
        ∃ m, decodeResumeToken t = .error (.decodeErr m))
    ∧ (∀ m m2 : String, WfError.decodeErr m ≠ WfError.executionErr m2
        ∧ WfError.decodeErr m ≠ WfError.validationErr m2) := by
  refine ⟨decode_encode, decode_sound, ?_, ?_⟩
  · intro t ht
    cases hd : decodeResumeToken t with
    | ok p =>
        obtain ⟨henc, hwf⟩ := decode_sound t p hd
        exact absurd henc (ht p hwf)
    | error e =>
        obtain ⟨m, hm⟩ := decode_err t e hd
        exact ⟨m, by rw [hm]⟩
  · intro m m2
    exact ⟨by simp, by simp⟩

/-- Witness for C2 at a concrete payload with one completed step. -/
theorem claim_C2_codec_inverse_witness :
    wellFormedPayload ⟨"workflow-file", "wf.lobster", 1, [⟨"data", "raw out", "", 0⟩]⟩
    ∧ decodeResumeToken (encodeResumeToken
        ⟨"workflow-file", "wf.lobster", 1, [⟨"data", "raw out", "", 0⟩]⟩)
      = .ok ⟨"workflow-file", "wf.lobster", 1, [⟨"data", "raw out", "", 0⟩]⟩ :=
  ⟨rfl, claim_C2_codec_inverse.1 ⟨"workflow-file", "wf.lobster", 1, [⟨"data", "raw out", "", 0⟩]⟩ rfl⟩

/-- C3: load-time validation rejects a step with both command and prompt with
a message naming the conflict and the step id, rejects a step with neither
with a message naming the omission, accepts exactly-one steps, rejects
duplicate step ids, and a validation failure is fatal before any step
executes: the run fails with the validation error and an empty spawn trace. -/
theorem claim_C3_load_validation :
    (∀ s : StepSpec, s.command.isSome → s.prompt.isSome →
        validateStep s = .error ("step " ++ s.id ++ " cannot have both command and prompt"))
    ∧ (∀ s : StepSpec, s.command = none → s.prompt = none →
        validateStep s = .error ("step " ++ s.id ++ " requires a command or prompt"))
    ∧ (∀ s : StepSpec, (s.command.isSome ∧ s.prompt = none) ∨ (s.command = none ∧ s.prompt.isSome) →
        validateStep s = .ok ())
    ∧ (∀ wf : WorkflowDefinition, ¬ (wf.steps.map (fun s => s.id)).Nodup →
        ∃ m, validateWorkflow wf = .error m)
    ∧ (∀ (wf : WorkflowDefinition) (m : String) (exec : ProcessRequest → ProcessResult)
        (pe : List (String × String)) (amb : String)
        (resume : Option (ResumePayload × String)), validateWorkflow wf = .error m →
        runWorkflowFile exec wf pe amb resume = (.failed (.validationErr m), [])) := by
  refine ⟨?_, ?_, ?_, ?_, ?_⟩
  · intro s h1 h2
    rcases hc : s.command with _ | cv
    · rw [hc] at h1
      simp at h1
    · rcases hp : s.prompt with _ | pv
      · rw [hp] at h2
        simp at h2
      · rw [validateStep, hc, hp]
  · intro s h1 h2
    rw [validateStep, h1, h2]
  · intro s h
    rcases h with ⟨h1, h2⟩ | ⟨h1, h2⟩
    · rcases hc : s.command with _ | cv
      · rw [hc] at h1
        simp at h1
      · rw [validateStep, hc, h2]
    · rcases hp : s.prompt with _ | pv
      · rw [hp] at h2
        simp at h2
      · rw [validateStep, h1, hp]
  · intro wf hdup
    cases hv : validateSteps wf.steps with
    | error m => exact ⟨m, by rw [validateWorkflow, hv]⟩
    | ok u => exact ⟨"workflow " ++ wf.name ++ " has duplicate step ids",
        by rw [validateWorkflow, hv]; simp [hdup]⟩
  · intro wf m exec pe amb resume hval
    rw [runWorkflowFile.eq_def, hval]

/-- Witness for C3 at concrete invalid and valid steps and a concrete
workflow whose only step has both command and prompt. -/
theorem claim_C3_load_validation_witness :
    validateStep { id := "bad", command := some "echo hi", prompt := some "also this" }
        = .error "step bad cannot have both command and prompt"
    ∧ validateStep { id := "empty" } = .error "step empty requires a command or prompt"
    ∧ validateStep { id := "ask", prompt := some "Hello?" } = .ok ()
    ∧ runWorkflowFile witnessExec
        { name := "invalid", source := "s", dir := "/d",
          steps := [{ id := "bad", command := some "echo hi", prompt := some "also this" }] }
        [] "/amb" none
      = (.failed (.validationErr "step bad cannot have both command and prompt"), []) :=
  ⟨claim_C3_load_validation.1 _ rfl rfl,
    claim_C3_load_validation.2.1 _ rfl rfl,
    claim_C3_load_validation.2.2.1 _ (Or.inr ⟨rfl, rfl⟩),
    claim_C3_load_validation.2.2.2.2 _ _ witnessExec [] "/amb" none rfl⟩

/-- Single-command-step workflow family used by the environment-precedence
claims: a workflow-level env binding for V, an optional step-level env. -/
def envLayerWf (src dir cTpl V : String) (stepEnv : List (String × String)) :
    WorkflowDefinition :=
  { name := "env-layering", source := src, dir := dir, env := [(V, "workflow")],
    steps := [{ id := "check", command := some cTpl, env := stepEnv }] }

theorem runLoop_single_cmd (exec : ProcessRequest → ProcessResult)
    (wf : WorkflowDefinition) (pe : List (String × String)) (amb : String)
    (step : StepSpec) (ctpl : String) (hp : step.prompt = none)
    (hc : step.command = some ctpl) (completed : List StepResult) (pending : Option String) :
    (runLoop exec wf pe amb [step] completed pending).2 =
      [{ command := resolveTemplate (mkScope wf pe completed) ctpl
         cwd := effectiveCwd wf amb
         env := composeEnv pe wf step
         stdin := step.stdin.map (resolveTemplate (mkScope wf pe completed)) }] := by
  rw [runLoop, hp, hc]
  dsimp only
  split
  · simp [runLoop]
  · simp


/-- C4: the effective environment for a step layers parent, workflow and step
environments in increasing precedence: with the parent binding V to parent
and the workflow env binding V to workflow, the spawned process's environment
resolves V to workflow; additionally binding V to step in the step env makes
it resolve to step. -/
theorem claim_C4_env_layering (V src dir cTpl amb : String)
    (exec : ProcessRequest → ProcessResult) :
    ((runWorkflowFile exec (envLayerWf src dir cTpl V []) [(V, "parent")] amb none).2.map
        (fun r => r.env.lookup V) = [some "workflow"])
    ∧ ((runWorkflowFile exec (envLayerWf src dir cTpl V [(V, "step")]) [(V, "parent")] amb
        none).2.map (fun r => r.env.lookup V) = [some "step"]) := by
  constructor
  · have hres : resolveTemplate (envResScope (envLayerWf src dir cTpl V []) [(V, "parent")])
        "workflow" = "workflow" := resolveTemplate_lit _ _ (by decide)
    have hval : validateWorkflow (envLayerWf src dir cTpl V []) = .ok () := by
      simp [validateWorkflow, validateSteps, validateStep, envLayerWf]
    rw [runWorkflowFile.eq_def, hval]
    rw [show (envLayerWf src dir cTpl V []).steps
        = [{ id := "check", command := some cTpl, env := [] }] from rfl]
    rw [runLoop_single_cmd exec _ _ amb _ cTpl rfl rfl [] none]
    simp only [envLayerWf] at hres
    simp [composeEnv, wfEnvResolved, envLayerWf, hres, List.lookup]
  · have hres : resolveTemplate (envResScope (envLayerWf src dir cTpl V [(V, "step")])
        [(V, "parent")]) "workflow" = "workflow" := resolveTemplate_lit _ _ (by decide)
    have hstep : resolveTemplate (stepEnvScope (envLayerWf src dir cTpl V [(V, "step")])
        [(V, "parent")] { id := "check", command := some cTpl, env := [(V, "step")] })
        "step" = "step" := resolveTemplate_lit _ _ (by decide)
    have hval : validateWorkflow (envLayerWf src dir cTpl V [(V, "step")]) = .ok () := by
      simp [validateWorkflow, validateSteps, validateStep, envLayerWf]
    rw [runWorkflowFile.eq_def, hval]
    rw [show (envLayerWf src dir cTpl V [(V, "step")]).steps
        = [{ id := "check", command := some cTpl, env := [(V, "step")] }] from rfl]
    rw [runLoop_single_cmd exec _ _ amb _ cTpl rfl rfl [] none]
    simp only [envLayerWf] at hres hstep
    simp [composeEnv, wfEnvResolved, envLayerWf, hres, hstep, List.lookup]

/-- Single-command-step workflow family for the argument-precedence claim:
an arg named N with default arg-value and a workflow env entry resolving the
template reference to N. -/
def argsPrecedenceWf (src dir cTpl N : String) : WorkflowDefinition :=
  { name := "args-precedence", source := src, dir := dir, args := [(N, "arg-value")],
    env := [(N, "$\x7b" ++ N ++ "\x7d")],
    steps := [{ id := "check", command := some cTpl }] }

/-- C5: when an arg and a parent-environment variable share the name N, the
workflow env template referencing N resolves to the arg's default, never the
parent environment's value: the spawned process observes N bound to
arg-value even though the parent environment binds N to env-value. -/
theorem claim_C5_args_outrank_env (N src dir cTpl amb : String)
    (exec : ProcessRequest → ProcessResult) (h1 : N.data ≠ [])
    (h2 : ∀ c ∈ N.data, c ≠ '}') (h3 : ∀ c ∈ N.data, c ≠ '.') :
    (runWorkflowFile exec (argsPrecedenceWf src dir cTpl N) [(N, "env-value")] amb none).2.map
        (fun r => r.env.lookup N) = [some "arg-value"] := by
  have hres : resolveTemplate (envResScope (argsPrecedenceWf src dir cTpl N) [(N, "env-value")])
      ("$\x7b" ++ N ++ "\x7d")
      = textForTemplate ((envResScope (argsPrecedenceWf src dir cTpl N)
          [(N, "env-value")]).lookup N) :=
    resolveTemplate_braced_single _ N h1 h2 h3
  have hlook : (envResScope (argsPrecedenceWf src dir cTpl N) [(N, "env-value")]).lookup N
      = some (JValue.str "arg-value") := by
    simp [envResScope, argsPrecedenceWf, argsScope, strScope, List.lookup]
  rw [hlook] at hres
  have hval : validateWorkflow (argsPrecedenceWf src dir cTpl N) = .ok () := by
    simp [validateWorkflow, validateSteps, validateStep, argsPrecedenceWf]
  rw [runWorkflowFile.eq_def, hval]
  rw [show (argsPrecedenceWf src dir cTpl N).steps
      = [{ id := "check", command := some cTpl }] from rfl]
  rw [runLoop_single_cmd exec _ _ amb _ cTpl rfl rfl [] none]
  simp only [argsPrecedenceWf] at hres
  simp [composeEnv, wfEnvResolved, argsPrecedenceWf, hres, textForTemplate, List.lookup]

/-- Witness for C5 at the concrete name NAME. -/
theorem claim_C5_args_outrank_env_witness :
    ("NAME" : String).data ≠ []
    ∧ (runWorkflowFile witnessExec (argsPrecedenceWf "a.lobster" "/d" "echo n" "NAME")
        [("NAME", "env-value")] "/amb" none).2.map
          (fun r => r.env.lookup "NAME") = [some "arg-value"] :=
  ⟨by decide,
    claim_C5_args_outrank_env "NAME" "a.lobster" "/d" "echo n" "/amb" witnessExec
      (by decide) (by decide) (by decide)⟩


/-- C7: renderTemplate replaces every placeholder reference of a well-formed
template with the resolved value's textual form — literals pass through,
strings render verbatim, non-string values render as compact JSON — and any
reference whose path cannot be resolved (a missing key at any segment, or a
null met along the path) renders as the empty string instead of failing;
resolution is a pure function of the template and the scope, stated here as
the homomorphism over the decomposed template pieces. -/
theorem claim_C7_render_template :
    (∀ (pieces : List TplPiece) (ctx : JValue), (∀ p ∈ pieces, goodPiece p) →
        renderTemplate (assemble pieces) ctx = renderPieces ctx pieces)
    ∧ textForTemplate none = ""
    ∧ textForTemplate (some .null) = ""
    ∧ (∀ s : String, textForTemplate (some (.str s)) = s)
    ∧ (∀ b : Bool, textForTemplate (some (.bool b)) = jsonStringify (.bool b))
    ∧ (∀ n : Int, textForTemplate (some (.num n)) = jsonStringify (.num n))
    ∧ (∀ xs : List JValue, textForTemplate (some (.arr xs)) = jsonStringify (.arr xs))
    ∧ (∀ fs : List (String × JValue), textForTemplate (some (.obj fs)) = jsonStringify (.obj fs))
    ∧ (∀ (s : String) (segs : List String), jWalk none (s :: segs) = none)
    ∧ (∀ (s : String) (segs : List String), jWalk (some .null) (s :: segs) = none)
    ∧ (∀ (fs : List (String × JValue)) (k : String) (segs : List String),
        fs.lookup k = none → jWalk (some (.obj fs)) (k :: segs) = none) := by
  refine ⟨?_, rfl, rfl, ?_, ?_, ?_, ?_, ?_, ?_, ?_, ?_⟩
  · intro pieces ctx h
    exact renderTemplate_assemble ctx pieces h
  · intro s
    rfl
  · intro b
    rfl
  · intro n
    rfl
  · intro xs
    rfl
  · intro fs
    rfl
  · intro s segs
    rfl
  · intro s segs
    rfl
  · intro fs k segs h
    have h1 : jWalk (some (.obj fs)) (k :: segs) = jWalk (fs.lookup k) segs := rfl
    rw [h1, h]
    cases segs with
    | nil => rfl
    | cons s rest => rfl

/-- Witness for C7 at a concrete template holding a string reference, a
numeric reference and an unresolvable reference. -/
theorem claim_C7_render_template_witness :
    renderTemplate
        (assemble [TplPiece.lit "a ", TplPiece.ref "x", TplPiece.lit " n=", TplPiece.ref "n",
          TplPiece.lit " m=", TplPiece.ref "miss.y"])
        (JValue.obj [("x", JValue.str "V"), ("n", JValue.num 5)])
      = renderPieces (JValue.obj [("x", JValue.str "V"), ("n", JValue.num 5)])
          [TplPiece.lit "a ", TplPiece.ref "x", TplPiece.lit " n=", TplPiece.ref "n",
            TplPiece.lit " m=", TplPiece.ref "miss.y"] :=
  claim_C7_render_template.1
    [TplPiece.lit "a ", TplPiece.ref "x", TplPiece.lit " n=", TplPiece.ref "n",
      TplPiece.lit " m=", TplPiece.ref "miss.y"]
    (JValue.obj [("x", JValue.str "V"), ("n", JValue.num 5)])
    (by decide)


/-- C8: every spawn request of a run uses the workflow's effective working
directory; with a relative cwd that directory is the path joined onto the
directory containing the workflow file (never the ambient working
directory), and an absolute cwd is used as given. -/
theorem claim_C8_cwd_resolution :
    (∀ (exec : ProcessRequest → ProcessResult) (wf : WorkflowDefinition)
        (pe : List (String × String)) (amb : String)
        (resume : Option (ResumePayload × String)) (req : ProcessRequest),
      req ∈ (runWorkflowFile exec wf pe amb resume).2 → req.cwd = effectiveCwd wf amb)
    ∧ (∀ (name src dir : String) (args env : List (String × String)) (c : String)
        (steps : List StepSpec) (amb : String),
        effectiveCwd ⟨name, src, dir, args, env, some c, steps⟩ amb
          = if isAbsPath c then c else joinPath dir c)
    ∧ (∀ dir rel : String, joinPath dir rel = dir ++ "/" ++ stripDotSlash rel) := by
  refine ⟨?_, ?_, ?_⟩
  · intro exec wf pe amb resume req hreq
    rw [runWorkflowFile.eq_def] at hreq
    split at hreq
    · simp at hreq
    · split at hreq
      · exact runLoop_cwd exec wf pe amb wf.steps [] none req hreq
      · exact runLoop_cwd exec wf pe amb _ _ _ req hreq
  · intro name src dir args env c steps amb
    rfl
  · intro dir rel
    rfl

/-- Concrete workflow with a relative cwd, for the C8 witness. -/
def cwdWitnessWf : WorkflowDefinition :=
  { name := "relative-cwd", source := "/tmp/x/workflow.lobster", dir := "/tmp/x",
    cwd := some "./scripts", steps := [{ id := "check", command := some "pwd" }] }

/-- The single spawn request of cwdWitnessWf under the constant spawner. -/
def cwdWitnessReq : ProcessRequest :=
  { command := "pwd", cwd := "/tmp/x/scripts", env := [], stdin := none }

/-- Witness for C8: the request spawned for the relative-cwd workflow runs in
the workflow directory joined with the relative path, not the ambient
directory. -/
theorem claim_C8_cwd_resolution_witness :
    cwdWitnessReq ∈ (runWorkflowFile witnessExec cwdWitnessWf [] "/ambient" none).2
    ∧ cwdWitnessReq.cwd = effectiveCwd cwdWitnessWf "/ambient"
    ∧ effectiveCwd cwdWitnessWf "/ambient" = "/tmp/x/scripts" := by
  have hmem : cwdWitnessReq ∈ (runWorkflowFile witnessExec cwdWitnessWf [] "/ambient" none).2 := by
    simp [runWorkflowFile, validateWorkflow, validateSteps, validateStep, runLoop,
      cwdWitnessWf, cwdWitnessReq, witnessExec, resolveTemplate, resolveAux, composeEnv,
      wfEnvResolved, stepEnvScope, envResScope, argsScope, strScope, effectiveCwd,
      isAbsPath, joinPath, stripDotSlash, mkScope, resultsScope]
  exact ⟨hmem,
    claim_C8_cwd_resolution.1 witnessExec cwdWitnessWf [] "/ambient" none cwdWitnessReq hmem,
    rfl⟩


/-- Counterexample to C9 as stated: with the wrap argument supplied as the
empty string and the unwrap argument supplied as a non-empty string — both
supplied as strings — run does not throw: the empty string is falsy in the
JavaScript guard, so the invocation succeeds. -/
theorem claim_C9_counterexample :
    mapRun (some "") (some "x") [] [] = .ok []
    ∧ ∀ msg : String, mapRun (some "") (some "x") [] [] ≠ .error msg := by
  refine ⟨rfl, ?_⟩
  intro msg h
  rw [show mapRun (some "") (some "x") [] [] = .ok [] from rfl] at h
  exact Except.noConfusion h

/-- C9 as amended: run throws the both-flags error exactly when the wrap and
unwrap arguments are supplied as non-empty strings, before consuming any
input item (the error is independent of the input list); when at most one of
them is truthy — absent, or supplied as the empty string — no error is
raised and every item is transformed. -/
theorem claim_C9_wrap_unwrap_conflict :
    (∀ (w u : String) (toks : List String) (input : List JValue), w ≠ "" → u ≠ "" →
        mapRun (some w) (some u) toks input = .error "map cannot use both --wrap and --unwrap")
    ∧ (∀ (wA uA : Option String) (toks : List String) (input : List JValue),
        ¬(truthyStr wA = true ∧ truthyStr uA = true) →
        mapRun wA uA toks input = .ok (input.map (processItem wA uA (parseAssignments toks)))) := by
  constructor
  · intro w u toks input hw hu
    rw [mapRun]
    rw [if_pos]
    exact ⟨by simp [truthyStr, hw], by simp [truthyStr, hu]⟩
  · intro wA uA toks input h
    rw [mapRun]
    rw [if_neg h]

/-- Witness for the amended C9 at concrete non-empty flags. -/
theorem claim_C9_wrap_unwrap_conflict_witness :
    ("a" : String) ≠ ""
    ∧ ("b" : String) ≠ ""
    ∧ mapRun (some "a") (some "b") [] [JValue.num 1]
        = .error "map cannot use both --wrap and --unwrap" :=
  ⟨by decide, by decide,
    claim_C9_wrap_unwrap_conflict.1 "a" "b" [] [JValue.num 1] (by decide) (by decide)⟩

/-- Counterexample to C10 as stated: with no wrap and a plain-object item,
the current value aliases the item, so the earlier assignment id=B changes
what the later template reference to id resolves to: the code yields B for
the copy field, while rendering against the original item yields A. -/
theorem claim_C10_counterexample :
    mapRun none none ["id=B", "copy=\x7b\x7bid\x7d\x7d"] [JValue.obj [("id", JValue.str "A")]]
      = .ok [some (JValue.obj [("id", JValue.str "B"), ("copy", JValue.str "B")])]
    ∧ renderTemplate "\x7b\x7bid\x7d\x7d" (JValue.obj [("id", JValue.str "A")]) = "A"
    ∧ ("B" : String) ≠ "A" := by
  have hB : renderTemplate "B" (JValue.obj [("id", JValue.str "A")]) = "B" :=
    renderTemplate_lit "B" _ (by decide)
  have hidB : renderTemplate "\x7b\x7bid\x7d\x7d" (JValue.obj [("id", JValue.str "B")]) = "B" := by
    rw [show ("\x7b\x7bid\x7d\x7d" : String) = "\x7b\x7b" ++ "id" ++ "\x7d\x7d" from rfl,
      renderTemplate_single_ref "id" _ (by decide) (by decide)]
    decide
  have hidA : renderTemplate "\x7b\x7bid\x7d\x7d" (JValue.obj [("id", JValue.str "A")]) = "A" := by
    rw [show ("\x7b\x7bid\x7d\x7d" : String) = "\x7b\x7b" ++ "id" ++ "\x7d\x7d" from rfl,
      renderTemplate_single_ref "id" _ (by decide) (by decide)]
    decide
  refine ⟨?_, hidA, by decide⟩
  simp [mapRun, processItem, parseAssignments, splitAssignment, truthyStr, isPlainObj,
    assignAliased, setField, setFieldList, strTrim, trimChars,
    List.dropWhile, List.takeWhile, List.lookup, decide_not, hB, hidB]


/-- C10 as amended: assignment templates are rendered against the object the
item variable references. With --wrap, or when the item is not a plain
object (then first replaced by a value-wrapper object), that object is the
untouched original item, so neither wrapping nor earlier assignments change
what a placeholder resolves to, and the wrapped non-object keeps its value
field; without --wrap on a plain-object item, the item aliases the
transformed value, so the first assignment still renders against the
original item but a later template sees earlier assignments of the same
invocation (the counterexample exhibits the change). -/
theorem claim_C10_assignment_rendering :
    (∀ (w : String) (as : List (String × String)) (item : JValue) (k v : String),
        w ≠ "" → lastAssign as k = some v →
        ∃ o, processItem (some w) none as item = some o
          ∧ jGet o k = some (.str (renderTemplate v item)))
    ∧ (∀ (as : List (String × String)) (item : JValue) (k v : String),
        isPlainObj item = false → lastAssign as k = some v →
        ∃ o, processItem none none as item = some o
          ∧ jGet o k = some (.str (renderTemplate v item)))
    ∧ (∀ (as : List (String × String)) (item : JValue),
        isPlainObj item = false → as ≠ [] → lastAssign as "value" = none →
        ∃ o, processItem none none as item = some o ∧ jGet o "value" = some item)
    ∧ (∀ (k v : String) (item : JValue), isPlainObj item = true →
        processItem none none [(k, v)] item
          = some (setField item k (.str (renderTemplate v item)))) := by
  have hne : ∀ (as : List (String × String)) (k v : String),
      lastAssign as k = some v → as ≠ [] := by
    intro as k v h hnil
    subst hnil
    simp [lastAssign] at h
  refine ⟨?_, ?_, ?_, ?_⟩
  · intro w as item k v hw hlast
    have hnil : as ≠ [] := hne as k v hlast
    refine ⟨assignFresh item as (.obj [(w, item)]), ?_, ?_⟩
    · simp [processItem, truthyStr, hnil, List.isEmpty_iff, hw]
    · rw [assignFresh_jGet item as _ k (by simp [isPlainObj]), hlast]
  · intro as item k v hobj hlast
    have hnil : as ≠ [] := hne as k v hlast
    refine ⟨assignFresh item as (.obj [("value", item)]), ?_, ?_⟩
    · rcases item with _ | b | n | s | xs | fields
      all_goals simp_all [processItem, truthyStr, List.isEmpty_iff, isPlainObj]
    · rw [assignFresh_jGet item as _ k (by simp [isPlainObj]), hlast]
  · intro as item hobj hnil hlast
    refine ⟨assignFresh item as (.obj [("value", item)]), ?_, ?_⟩
    · rcases item with _ | b | n | s | xs | fields
      all_goals simp_all [processItem, truthyStr, List.isEmpty_iff, isPlainObj]
    · rw [assignFresh_jGet item as _ "value" (by simp [isPlainObj]), hlast]
      simp [jGet, List.lookup]
  · intro k v item hobj
    rcases item with _ | b | n | s | xs | fields
    all_goals simp_all [processItem, truthyStr, List.isEmpty_iff, isPlainObj, assignAliased]

/-- Witness for the amended C10: wrapping with a non-empty wrap name and
assigning a field renders the assignment against the original item. -/
theorem claim_C10_assignment_rendering_witness :
    ("item" : String) ≠ ""
    ∧ lastAssign [("kind", "pr")] "kind" = some "pr"
    ∧ ∃ o, processItem (some "item") none [("kind", "pr")] (JValue.num 5) = some o
        ∧ jGet o "kind" = some (.str (renderTemplate "pr" (JValue.num 5))) :=
  ⟨by decide, rfl,
    claim_C10_assignment_rendering.1 "item" [("kind", "pr")] (JValue.num 5) "kind" "pr"
      (by decide) rfl⟩

end Lobster
